import Mathlib

/-!
# Verification of the opengig match engine and alert pipeline

Shallow embedding of the core of the opengig repository:

* the lexical fallback scorer `keywordMatch` and the ranking orchestrator
  `rankWithAI` from the match edge function;
* the eligible-listing query made by the same edge function;
* the `notifications` table schema (DDL) and its insert behaviour;
* the notification dispatcher loop of the send-notifications edge function;
* the `renew_listing` MCP tool.

Strings are Lean `String`s, scores are rationals (`Rat`), timestamps are `Nat`.
All functions are total: the JavaScript sources catch every exception on the
paths modelled here, and where a thrown exception changes the result the
embedding makes the failure explicit (`Option`, outcome inductives).
-/

namespace Opengig

/-- The user row shape selected by the match edge function
(`users (id, name, headline, linkedin_url)`). -/
structure User where
  id : String
  name : String
  headline : Option String
  linkedin_url : String
deriving DecidableEq

/-- The listing fields carried through the match edge function
(interface `Listing` of the match function). -/
structure Listing where
  id : String
  user_id : String
  type : String
  title : String
  description : String
  skills : List String
  rate_min : Option Int
  rate_max : Option Int
  rate_type : Option String
  remote : Bool
  location : Option String
deriving DecidableEq

/-- A listing joined with its poster, as fetched by
`.select('*, user:users (id, name, headline, linkedin_url)')`. -/
structure ListingWithUser extends Listing where
  user : User
deriving DecidableEq

/-- One element of the ranked answer: the listing rebuilt field by field,
the poster, a score and reason strings. -/
structure MatchResult where
  listing : Listing
  user : User
  score : Rat
  reasons : List String
deriving DecidableEq

/-- `needle.isPrefixOf` at some position of `hay`: embedding of JavaScript
`String.prototype.includes` on the underlying character lists. -/
def charListIncludes (needle : List Char) : List Char → Bool
  | [] => needle.isEmpty
  | c :: rest => needle.isPrefixOf (c :: rest) || charListIncludes needle rest

/-- `hay.includes(needle)` from the JavaScript source. -/
def strIncludes (hay needle : String) : Bool :=
  charListIncludes needle.data hay.data

/-- ASCII lower-casing, character by character: the effect of JavaScript
`toLowerCase` on the ASCII range (`Char.toLower` only maps `A`–`Z`). -/
def toLowerStr (s : String) : String :=
  ⟨s.data.map Char.toLower⟩

/-- Splitting at every character satisfying `p`, keeping (possibly empty)
chunks between separators. After the length filter below this agrees with
JavaScript `split(/\s+/)`. -/
def splitChars (p : Char → Bool) : List Char → List (List Char)
  | [] => [[]]
  | c :: rest =>
    if p c then [] :: splitChars p rest
    else
      match splitChars p rest with
      | [] => [[c]]
      | w :: ws => (c :: w) :: ws

/-- `s.split` on a character predicate, as strings. -/
def splitStr (p : Char → Bool) (s : String) : List String :=
  (splitChars p s.data).map String.mk

/-- `query.toLowerCase().split(/\s+/).filter((w) => w.length > 2)`. -/
def queryTokens (query : String) : List String :=
  (splitStr (fun c => c.isWhitespace) (toLowerStr query)).filter (fun w => w.length > 2)

/-- The haystack built per listing:
```${listing.title} ${listing.description} ${listing.skills.join(' ')}`.toLowerCase()``. -/
def searchText (l : ListingWithUser) : String :=
  toLowerStr (l.title ++ " " ++ l.description ++ " " ++ String.intercalate " " l.skills)

/-- The query tokens that are substrings of the haystack, in query order
(the `matchedWords` accumulator of `keywordMatch`). -/
def matchedWords (tokens : List String) (text : String) : List String :=
  tokens.filter (fun w => strIncludes text w)

/-- Scoring of one listing inside `keywordMatch`: 0.2 per matched token,
0.3 per skill tag that equals (lower-cased) some query token, capped at 1.0
by `Math.min(score, 1.0)`; a single reason string listing the matched tokens
when any matched. The accumulated sum of 0.2 and 0.3 increments is written
as a single fraction over 10 (`Rat` arithmetic is exact, so the order of
accumulation does not matter). -/
def scoreListing (tokens : List String) (l : ListingWithUser) : MatchResult :=
  let mw := matchedWords tokens (searchText l)
  let raw : Rat := mkRat
      (2 * mw.length + 3 * (l.skills.filter (fun s => tokens.contains (toLowerStr s))).length)
      10
  { listing := l.toListing
    user := l.user
    score := if raw ≤ 1 then raw else 1
    reasons := if mw.isEmpty then [] else ["Matches: " ++ String.intercalate ", " mw] }

/-- The `scored` array of `keywordMatch` before filtering and sorting. -/
def scoredMatches (query : String) (listings : List ListingWithUser) : List MatchResult :=
  listings.map (scoreListing (queryTokens query))

/-- The order realised by the comparator `(a, b) => b.score - a.score`:
`a` may come before `b` iff `b.score ≤ a.score`. -/
def scoreGe (a b : MatchResult) : Prop :=
  b.score ≤ a.score

instance : DecidableRel scoreGe :=
  fun a b => inferInstanceAs (Decidable (b.score ≤ a.score))

instance : IsTotal MatchResult scoreGe :=
  ⟨fun a b => le_total b.score a.score⟩

instance : IsTrans MatchResult scoreGe :=
  ⟨fun _ _ _ h h' => le_trans h' h⟩

/-- `scored.filter((m) => m.score > 0.1)`. -/
def filteredMatches (query : String) (listings : List ListingWithUser) : List MatchResult :=
  (scoredMatches query listings).filter (fun m => decide (mkRat 1 10 < m.score))

/-- The filtered list after `.sort((a, b) => b.score - a.score)`, before
truncation. JavaScript `Array.prototype.sort` is a stable sort, and
`List.insertionSort scoreGe` (which places an earlier element in front of a
later one exactly when the earlier score is ≥ the later one) computes the
unique stable descending-by-score reordering. -/
def sortedMatches (query : String) (listings : List ListingWithUser) : List MatchResult :=
  (filteredMatches query listings).insertionSort scoreGe

/-- The lexical fallback scorer `keywordMatch` of the match edge function:
filter to score > 0.1, stable sort by score descending, take the top 10. -/
def keywordMatch (query : String) (listings : List ListingWithUser) : List MatchResult :=
  (sortedMatches query listings).take 10

/-- One entry of the parsed model answer: `{index, score, reasons}`. -/
structure AIMatch where
  index : Nat
  score : Rat
  reasons : List String
deriving DecidableEq

/-- Outcome of the external ranking call as observed by `rankWithAI`:
the `fetch` threw, the response was non-2xx, `JSON.parse` threw, or the
answer parsed to a `matches` array. A missing `content[0].text` and a
missing `matches` field both parse to `success []` in the source
(`'{"matches":[]}'` and `parsed.matches || []`); `matches` is a Lean keyword,
hence the field name `matchList`. -/
inductive ModelOutcome where
  | networkError
  | httpNotOk
  | parseError
  | success (matchList : List AIMatch)
deriving DecidableEq

/-- Mapping one model match back to a full result
(the object literal built in `aiMatches.map`). -/
def mkAIResult (l : ListingWithUser) (m : AIMatch) : MatchResult :=
  { listing := l.toListing, user := l.user, score := m.score, reasons := m.reasons }

/-- The `aiMatches.map(...)` of the source: `listings[m.index]` is `undefined`
for an out-of-range index, so `.id` throws on the first such entry and no
partial result escapes — `none` models that thrown `TypeError`. -/
def mapAIMatches (listings : List ListingWithUser) : List AIMatch → Option (List MatchResult)
  | [] => some []
  | m :: rest =>
    match listings[m.index]? with
    | none => none
    | some l => (mapAIMatches listings rest).map (fun rs => mkAIResult l m :: rs)

/-- The ranking orchestrator `rankWithAI`: with no API key configured the
lexical scorer answers directly; otherwise any failure of the model call
(network error, non-2xx, parse error, or the `TypeError` thrown while
mapping an out-of-range index) is caught and the lexical scorer answers;
a successfully mapped model answer is returned as is. -/
def rankWithAI (apiKeyConfigured : Bool) (outcome : ModelOutcome)
    (query : String) (listings : List ListingWithUser) : List MatchResult :=
  if !apiKeyConfigured then keywordMatch query listings
  else
    match outcome with
    | .networkError => keywordMatch query listings
    | .httpNotOk => keywordMatch query listings
    | .parseError => keywordMatch query listings
    | .success ms =>
      match mapAIMatches listings ms with
      | some results => results
      | none => keywordMatch query listings

/-- The model call failed (as opposed to answering, possibly with zero
matches): no API key, the request threw, a non-2xx status, or an unparseable
body. -/
def modelFailed (apiKeyConfigured : Bool) (outcome : ModelOutcome) : Prop :=
  apiKeyConfigured = false ∨ outcome = .networkError ∨ outcome = .httpNotOk ∨
    outcome = .parseError

/-- The spec's wording of step 4 of the orchestrator protocol: drop each
out-of-range index, keep the remaining matches. Stated from the spec, to be
compared with `rankWithAI`. -/
def dropOutOfRangeSpec (listings : List ListingWithUser) (ms : List AIMatch) :
    List MatchResult :=
  ms.filterMap (fun m => (listings[m.index]?).map (fun l => mkAIResult l m))

/-! ## The listings table and the eligible-listing query -/

/-- A row of the `listings` table (001_initial_schema.sql). Timestamps are
`Nat` (instants on an abstract clock), `expires_at` is nullable. -/
structure DbListing where
  id : String
  user_id : String
  type : String
  title : String
  description : String
  skills : List String
  rate_min : Option Int
  rate_max : Option Int
  rate_type : Option String
  location : Option String
  remote : Bool
  created_at : Nat
  expires_at : Option Nat
  active : Bool
deriving DecidableEq

/-- The candidate query of the match edge function — the operation the spec
names `fetchEligibleListings(kind, excludeOwner)`:
`.eq('type', listingType).eq('active', true).neq('user_id', userId).limit(50)`.
The query carries no `order` clause and no condition on `expires_at`, so the
embedding returns the first 50 matching rows in store order. -/
def fetchEligibleListings (db : List DbListing) (listingType : String)
    (excludeOwner : String) : List DbListing :=
  (db.filter (fun l => l.type == listingType && l.active && l.user_id != excludeOwner)).take 50

/-- The eligibility invariant of the spec's data model: active, and expiry
unset or strictly in the future. Stated from the spec, to be compared with
what `fetchEligibleListings` returns. -/
def eligibleSpec (now : Nat) (l : DbListing) : Prop :=
  l.active = true ∧ (l.expires_at = none ∨ ∃ e, l.expires_at = some e ∧ now < e)

/-- The `renew_listing` MCP tool: update rows matching
`.eq('id', listing_id).eq('user_id', user.id)` to
`{expires_at: now + 30 days, active: true}`. The clock is day-granular, so
30 days is `now + 30`. -/
def renew_listing (db : List DbListing) (callerId listingId : String) (now : Nat) :
    List DbListing :=
  db.map (fun l =>
    if l.id == listingId && l.user_id == callerId then
      { l with expires_at := some (now + 30), active := true }
    else l)

/-! ## The notifications table -/

/-- The kind-specific metadata payload of a notification. The JSONB column
is modelled by the two keys the new-match dedup key reads; both are absent
(`none`) for other kinds. -/
structure NotifMeta where
  saved_query_id : Option String
  listing_id : Option String
deriving DecidableEq

/-- A row of the `notifications` table as created by the DDL in the
notification-queue migration: primary key `id`, a `CHECK` on `type`,
`email_sent` defaulting to false, nullable `sent_at`. -/
structure NotificationRow where
  id : String
  user_id : String
  type : String
  title : String
  body : String
  metadata : NotifMeta
  email_sent : Bool
  sent_at : Option Nat
  created_at : Nat
deriving DecidableEq

/-- The `CHECK (type IN (...))` constraint of the DDL. -/
def notifTypes : List String :=
  ["new_match", "message_received", "listing_expiring", "contact_shared"]

/-- `INSERT` into `notifications`: the only constraints the DDL places on a
new row are the `CHECK` on `type` and the primary key on `id`; there is no
unique constraint on `(user_id, type, metadata)`. `none` models a rejected
insert (constraint violation). -/
def insertNotification (tbl : List NotificationRow) (r : NotificationRow) :
    Option (List NotificationRow) :=
  if notifTypes.contains r.type && tbl.all (fun x => x.id != r.id) then
    some (tbl ++ [r])
  else none

/-- Whether a row carries the new-match dedup key
`(recipient, kind=new_match, saved_query_id, listing_id)`. -/
def hasNewMatchKey (uid sqid lid : String) (r : NotificationRow) : Bool :=
  r.user_id == uid && r.type == "new_match" &&
    r.metadata.saved_query_id == some sqid && r.metadata.listing_id == some lid

/-- Number of rows of the table carrying a given new-match dedup key. -/
def newMatchKeyCount (tbl : List NotificationRow) (uid sqid lid : String) : Nat :=
  (tbl.filter (hasNewMatchKey uid sqid lid)).length

/-! ## The notification dispatcher (send-notifications edge function) -/

/-- The user row shape selected by the dispatcher
(`users (id, email, name)`); `email` is a nullable column. -/
structure DUser where
  id : String
  email : Option String
  name : String
deriving DecidableEq

/-- `userMap.get(notification.user_id)` followed by the `!user?.email` guard:
the address resolves only when the user row exists and its email is present
and non-empty (an empty string is falsy in JavaScript). -/
def resolveEmail (users : List DUser) (uid : String) : Option String :=
  match users.find? (fun u => u.id == uid) with
  | none => none
  | some u =>
    match u.email with
    | none => none
    | some e => if e = "" then none else some e

/-- Outcome of one transport call (`fetch` to the email API): success,
a non-2xx response carrying the response body, or a thrown exception. -/
inductive TransportResult where
  | ok
  | httpFail (msg : String)
  | exn (msg : String)
deriving DecidableEq

/-- The per-delivery `update({email_sent: true, sent_at: now}).eq('id', ...)`. -/
def markSent (tbl : List NotificationRow) (nid : String) (now : Nat) :
    List NotificationRow :=
  tbl.map (fun r =>
    if r.id == nid then { r with email_sent := true, sent_at := some now } else r)

/-- The batch fetched at the start of a dispatcher run:
`.eq('email_sent', false).order('created_at', {ascending: true}).limit(50)`. -/
def pendingBatch (tbl : List NotificationRow) : List NotificationRow :=
  (((tbl.filter (fun r => r.email_sent == false)).insertionSort
      (fun a b => a.created_at ≤ b.created_at)).take 50)

/-- The loop body of the dispatcher for one notification: accumulated state is
(current table, sent counter, error list). No resolvable address or a failed
transport call records an error and leaves the row untouched; a successful
call marks the row sent. -/
def processOne (users : List DUser) (transport : NotificationRow → TransportResult)
    (now : Nat) (st : List NotificationRow × Nat × List String) (n : NotificationRow) :
    List NotificationRow × Nat × List String :=
  match resolveEmail users n.user_id with
  | none => (st.1, st.2.1, st.2.2 ++ ["No email for user " ++ n.user_id])
  | some email =>
    match transport n with
    | .ok => (markSent st.1 n.id now, st.2.1 + 1, st.2.2)
    | .httpFail msg => (st.1, st.2.1, st.2.2 ++ ["Failed to send to " ++ email ++ ": " ++ msg])
    | .exn msg => (st.1, st.2.1, st.2.2 ++ ["Email error for " ++ email ++ ": " ++ msg])

/-- One dispatcher run over the pending batch: returns the updated table and
the delivery report `{sent, errors}`. The batch is the snapshot fetched before
the loop; the transport oracle gives each call's outcome. -/
def dispatchRun (tbl : List NotificationRow) (users : List DUser)
    (transport : NotificationRow → TransportResult) (now : Nat) :
    List NotificationRow × Nat × List String :=
  (pendingBatch tbl).foldl (processOne users transport now) (tbl, 0, [])

/-- The delivered-row shape written by the dispatcher:
`{email_sent: true, sent_at: now}`. -/
def updatedRow (now : Nat) (r : NotificationRow) : NotificationRow :=
  { r with email_sent := true, sent_at := some now }

/-- Ids of the batch rows whose transport call succeeds. -/
def okIds (transport : NotificationRow → TransportResult)
    (ns : List NotificationRow) : List String :=
  (ns.filter (fun n => decide (transport n = TransportResult.ok))).map (fun n => n.id)

/-- Row-wise relation between the initial table and the table during/after a
dispatcher run: each row is untouched or was marked sent, the latter only for
an id whose transport call succeeded. -/
def rowRel (ids : List String) (now : Nat) (o c : NotificationRow) : Prop :=
  c = o ∨ (o.id ∈ ids ∧ c = updatedRow now o)

/-! ## Concrete fixtures used by scenario theorems and witnesses -/

/-- Poster of the scenario listing. -/
def u4 : User :=
  { id := "u2", name := "Dana", headline := none, linkedin_url := "" }

/-- The scenario listing of §8: title "Senior React Developer",
skills react/typescript/node, rate 70–90, remote. -/
def l4 : ListingWithUser :=
  { id := "l1", user_id := "u2", type := "available", title := "Senior React Developer",
    description := "", skills := ["react", "typescript", "node"], rate_min := some 70,
    rate_max := some 90, rate_type := some "hourly", remote := true, location := none,
    user := u4 }

/-- The scenario query of §8. -/
def q4 : String := "react developer remote $80"

/-- A model answer with one in-range index (0) and one out-of-range index (5)
for a single-listing candidate set. -/
def ms6 : List AIMatch :=
  [{ index := 0, score := mkRat 9 10, reasons := ["strong match"] },
   { index := 5, score := mkRat 8 10, reasons := [] }]

/-- First new-match notification row for the dedup-key counterexample. -/
def nr1 : NotificationRow :=
  { id := "n1", user_id := "u1", type := "new_match", title := "New match",
    body := "b", metadata := { saved_query_id := some "sq1", listing_id := some "li1" },
    email_sent := false, sent_at := none, created_at := 1 }

/-- Second row: identical dedup key, distinct primary key. -/
def nr2 : NotificationRow :=
  { nr1 with id := "n2", created_at := 2 }

/-- An active listing whose expiry (5) is already in the past at time 10. -/
def lExpired : DbListing :=
  { id := "La", user_id := "owner1", type := "job", title := "old", description := "",
    skills := [], rate_min := none, rate_max := none, rate_type := none, location := none,
    remote := true, created_at := 1, expires_at := some 5, active := true }

/-- A newer active listing with no expiry. -/
def lFresh : DbListing :=
  { id := "Lb", user_id := "owner1", type := "job", title := "new", description := "",
    skills := [], rate_min := none, rate_max := none, rate_type := none, location := none,
    remote := true, created_at := 2, expires_at := none, active := true }

/-- Listings table for the eligibility counterexample, older row first. -/
def db7 : List DbListing := [lExpired, lFresh]

/-- Recipients for the dispatcher scenario. -/
def usersScenario : List DUser :=
  [{ id := "ua", email := some "a@x.com", name := "A" },
   { id := "ub", email := some "b@x.com", name := "B" },
   { id := "uc", email := some "c@x.com", name := "C" }]

/-- First pending notification of the dispatcher scenario. -/
def pn1 : NotificationRow :=
  { id := "n1", user_id := "ua", type := "message_received", title := "t1", body := "b1",
    metadata := { saved_query_id := none, listing_id := none },
    email_sent := false, sent_at := none, created_at := 1 }

/-- Second pending notification (its transport call will fail). -/
def pn2 : NotificationRow :=
  { pn1 with id := "n2", user_id := "ub", created_at := 2 }

/-- Third pending notification. -/
def pn3 : NotificationRow :=
  { pn1 with id := "n3", user_id := "uc", created_at := 3 }

/-- Notification table for the dispatcher scenario. -/
def tblScenario : List NotificationRow := [pn1, pn2, pn3]

/-- Transport oracle failing exactly for the second notification. -/
def transportScenario (n : NotificationRow) : TransportResult :=
  if n.id == "n2" then .httpFail "boom" else .ok

/-! ## Helper lemmas -/

theorem mapAIMatches_eq_none {listings : List ListingWithUser} {ms : List AIMatch}
    (h : ∃ m ∈ ms, listings[m.index]? = (none : Option ListingWithUser)) :
    mapAIMatches listings ms = none := by
  induction ms with
  | nil => simp at h
  | cons m rest ih =>
    obtain ⟨m', hm', hnone⟩ := h
    rcases List.mem_cons.mp hm' with rfl | hmem
    · simp [mapAIMatches, hnone]
    · unfold mapAIMatches
      cases hidx : listings[m.index]? with
      | none => rfl
      | some l => rw [ih ⟨m', hmem, hnone⟩]; rfl

theorem scoreListing_score_le_one (tokens : List String) (l : ListingWithUser) :
    (scoreListing tokens l).score ≤ 1 := by
  unfold scoreListing
  dsimp only
  split
  · assumption
  · exact le_refl 1

/-- Each element of a `Forall₂`-related right list has a related witness on
the left. -/
theorem forall₂_exists_left {α β : Type} {R : α → β → Prop} :
    ∀ {l : List α} {l' : List β}, List.Forall₂ R l l' → ∀ c ∈ l', ∃ o ∈ l, R o c := by
  intro l l' h
  induction h with
  | nil => intro c hc; simp at hc
  | cons hR _ ih =>
    intro c hc
    rcases List.mem_cons.mp hc with rfl | hc'
    · exact ⟨_, List.mem_cons_self _ _, hR⟩
    · obtain ⟨o, ho, hRo⟩ := ih c hc'
      exact ⟨o, List.mem_cons_of_mem _ ho, hRo⟩

/-! ## Claim theorems -/

/-- C1: whenever the ranking model call fails — no API key configured, the
request threw, a non-2xx response, or an unparseable body — `rankWithAI`
returns exactly the result of the lexical scorer `keywordMatch` on the same
query and listing set. `rankWithAI` is a total function, which embeds "never
throws to the caller". -/
theorem rank_falls_back_on_model_failure (cfg : Bool) (outcome : ModelOutcome)
    (query : String) (listings : List ListingWithUser)
    (h : modelFailed cfg outcome) :
    rankWithAI cfg outcome query listings = keywordMatch query listings := by
  rcases h with h | h | h | h
  · subst h; rfl
  all_goals subst h
  all_goals cases cfg <;> rfl

/-- Witness for C1: a configured key with a non-2xx response degrades to the
lexical scorer result on the scenario input. -/
theorem rank_falls_back_on_model_failure_witness :
    rankWithAI true ModelOutcome.httpNotOk q4 [l4] = keywordMatch q4 [l4] :=
  rank_falls_back_on_model_failure true ModelOutcome.httpNotOk q4 [l4]
    (Or.inr (Or.inr (Or.inl rfl)))

/-- C5: a successful model answer with zero matches yields the empty result
for a non-empty candidate set; the lexical fallback is not consulted — the
result is `[]` regardless of what `keywordMatch` would return. -/
theorem rank_empty_model_answer (query : String) (listings : List ListingWithUser)
    (_h : listings ≠ []) :
    rankWithAI true (ModelOutcome.success []) query listings = [] := by
  rfl

/-- Witness for C5: on the non-empty scenario candidate set (where the
lexical scorer would return a non-empty answer) an empty model answer gives
the empty result. -/
theorem rank_empty_model_answer_witness :
    rankWithAI true (ModelOutcome.success []) q4 [l4] = [] ∧ keywordMatch q4 [l4] ≠ [] :=
  ⟨rank_empty_model_answer q4 [l4] (List.cons_ne_nil _ _), by decide⟩

/-- Counterexample to C6: with one candidate listing and a model answer whose
second entry carries the out-of-range index 5, the claim predicts that the
in-range first entry is still returned (the behaviour of `dropOutOfRangeSpec`);
the code instead throws while mapping, falls back to the lexical scorer, and
returns its answer — here the empty list. -/
theorem rank_oor_cex :
    rankWithAI true (ModelOutcome.success ms6) "zzzz" [l4] ≠ dropOutOfRangeSpec [l4] ms6 := by
  decide

/-- C6 amended: a model answer containing any out-of-range index is discarded
as a whole — `listings[m.index]` is `undefined`, reading `.id` throws, the
`catch` falls back — so `rankWithAI` returns the lexical scorer's result and
none of the in-range matches. -/
theorem rank_oor_falls_back (query : String) (listings : List ListingWithUser)
    (ms : List AIMatch)
    (h : ∃ m ∈ ms, listings[m.index]? = (none : Option ListingWithUser)) :
    rankWithAI true (ModelOutcome.success ms) query listings = keywordMatch query listings := by
  simp only [rankWithAI, Bool.not_true, mapAIMatches_eq_none h, if_neg (by decide : ¬ false = true)]

/-- Witness for C6 amended: the out-of-range answer `ms6` over the
single-listing candidate set degrades to the lexical result. -/
theorem rank_oor_falls_back_witness :
    rankWithAI true (ModelOutcome.success ms6) "zzzz" [l4] = keywordMatch "zzzz" [l4] :=
  rank_oor_falls_back "zzzz" [l4] ms6
    ⟨{ index := 5, score := mkRat 8 10, reasons := [] }, by decide, by decide⟩

/-- Counterexample to C4: on the §8 scenario input the lexical scorer does
not assign score 0.5 — the token "developer" also matches the title, so the
score is 0.7. -/
theorem keywordMatch_scenario_cex :
    ¬ (keywordMatch q4 [l4]).map (fun r => r.score) = [mkRat 5 10] := by
  decide

/-- C4 amended: on the scenario input the lexical scorer returns exactly one
result with score 0.7 = 0.2 (token "react") + 0.2 (token "developer") + 0.3
(exact skill "react"); its reason string is "Matches: react, developer",
which contains "Matches: react". -/
theorem keywordMatch_scenario :
    keywordMatch q4 [l4] =
      [{ listing := l4.toListing, user := u4, score := mkRat 7 10,
         reasons := ["Matches: react, developer"] }]
    ∧ strIncludes "Matches: react, developer" "Matches: react" = true := by
  decide

/-- C3: for every query and listing set the lexical scorer's output is sorted
by score descending; ties keep input order (an equal-score pair appearing in
that order in the filtered input still appears in that order after the stable
sort, of which the output is the prefix of length 10); every returned score
lies in (0.1, 1.0]; and at most 10 results are returned. -/
theorem keywordMatch_props (query : String) (listings : List ListingWithUser) :
    (keywordMatch query listings).Pairwise (fun a b => b.score ≤ a.score)
    ∧ (∀ r ∈ keywordMatch query listings, mkRat 1 10 < r.score ∧ r.score ≤ 1)
    ∧ (keywordMatch query listings).length ≤ 10
    ∧ (∀ a b : MatchResult, a.score = b.score →
        [a, b].Sublist (filteredMatches query listings) →
        [a, b].Sublist (sortedMatches query listings))
    ∧ keywordMatch query listings = (sortedMatches query listings).take 10 := by
  refine ⟨?_, ?_, ?_, ?_, rfl⟩
  · exact List.Pairwise.sublist (List.take_sublist 10 _)
      (List.sorted_insertionSort scoreGe (filteredMatches query listings))
  · intro r hr
    have h1 : r ∈ sortedMatches query listings := List.mem_of_mem_take hr
    have h2 : r ∈ filteredMatches query listings := (List.mem_insertionSort scoreGe).mp h1
    obtain ⟨h3, h4⟩ := List.mem_filter.mp h2
    refine ⟨of_decide_eq_true h4, ?_⟩
    obtain ⟨l, -, rfl⟩ := List.mem_map.mp h3
    exact scoreListing_score_le_one _ l
  · exact List.length_take_le 10 _
  · intro a b hab hsub
    refine List.sublist_insertionSort ?_ hsub
    exact List.pairwise_cons.mpr
      ⟨fun c hc => by rcases List.mem_singleton.mp hc with rfl; exact le_of_eq hab.symm,
       List.pairwise_singleton _ _⟩

/-- Counterexample to C7: the candidate query keeps an active listing whose
expiry (time 5) is already past at time 10, violating the eligibility
invariant, and returns rows in store order (here creation time ascending),
not creation time descending. -/
theorem fetchEligibleListings_cex :
    fetchEligibleListings db7 "job" "u9" = [lExpired, lFresh]
    ∧ (lExpired.expires_at.all (fun e => decide (10 < e))) = false
    ∧ ¬ (fetchEligibleListings db7 "job" "u9").Pairwise
        (fun a b => b.created_at ≤ a.created_at) := by
  refine ⟨by decide, by decide, ?_⟩
  intro h
  have : fetchEligibleListings db7 "job" "u9" = [lExpired, lFresh] := by decide
  rw [this] at h
  have h2 := (List.pairwise_cons.mp h).1 lFresh (List.mem_cons_self _ _)
  exact absurd h2 (by decide)

/-- C7 amended: the query returns at most 50 listings, each of the requested
kind, active, and not owned by the excluded owner, in store order (a sublist
of the table); it applies no expiry condition and no ordering. -/
theorem fetchEligibleListings_props (db : List DbListing) (t owner : String) :
    (fetchEligibleListings db t owner).length ≤ 50
    ∧ (∀ l ∈ fetchEligibleListings db t owner,
        l.type = t ∧ l.active = true ∧ l.user_id ≠ owner)
    ∧ (fetchEligibleListings db t owner).Sublist db := by
  refine ⟨List.length_take_le 50 _, ?_, ?_⟩
  · intro l hl
    have h1 : l ∈ (db.filter
        (fun l => l.type == t && l.active && l.user_id != owner)) :=
      List.mem_of_mem_take hl
    obtain ⟨-, h2⟩ := List.mem_filter.mp h1
    simp only [Bool.and_eq_true, beq_iff_eq, bne_iff_ne] at h2
    exact ⟨h2.1.1, h2.1.2, h2.2⟩
  · exact (List.take_sublist _ _).trans (List.filter_sublist _)

/-- Counterexample to C2: the notifications DDL has no unique constraint on
(recipient, kind, saved_query_id, listing_id) — two inserts whose rows carry
the identical new-match dedup key but distinct primary keys both succeed,
leaving two rows with that key. -/
theorem notifications_unique_cex :
    insertNotification [] nr1 = some [nr1]
    ∧ insertNotification [nr1] nr2 = some [nr1, nr2]
    ∧ newMatchKeyCount [nr1, nr2] "u1" "sq1" "li1" = 2 := by
  decide

/-- C2 amended: the store enforces uniqueness of the primary key `id` only.
Whenever a row with the new-match dedup key is already in the table, inserting
a second row with the same dedup key and a fresh id succeeds, and the table
afterwards holds two more rows with that key than before the first insert —
the dedup triple is not unique. -/
theorem notifications_dedup_not_enforced (tbl : List NotificationRow)
    (r₁ r₂ : NotificationRow) (uid sqid lid : String) (tbl₁ : List NotificationRow)
    (hk₁ : hasNewMatchKey uid sqid lid r₁ = true)
    (hk₂ : hasNewMatchKey uid sqid lid r₂ = true)
    (hins₁ : insertNotification tbl r₁ = some tbl₁)
    (hfresh : (tbl₁.all (fun x => x.id != r₂.id)) = true) :
    insertNotification tbl₁ r₂ = some (tbl₁ ++ [r₂])
    ∧ newMatchKeyCount (tbl₁ ++ [r₂]) uid sqid lid
        = newMatchKeyCount tbl uid sqid lid + 2 := by
  have htype₂ : r₂.type = "new_match" := by
    simp only [hasNewMatchKey, Bool.and_eq_true, beq_iff_eq] at hk₂
    exact hk₂.1.1.2
  have hcontains₂ : notifTypes.contains r₂.type = true := by
    rw [htype₂]; decide
  have htbl₁ : tbl₁ = tbl ++ [r₁] := by
    unfold insertNotification at hins₁
    split at hins₁
    · exact (Option.some_inj.mp hins₁).symm
    · exact absurd hins₁ (by simp)
  constructor
  · unfold insertNotification
    rw [hcontains₂, hfresh]
    rfl
  · subst htbl₁
    simp only [newMatchKeyCount, List.filter_append, List.length_append]
    simp [hk₁, hk₂]

/-- Witness for C2 amended: instantiated at the concrete counterexample rows. -/
theorem notifications_dedup_not_enforced_witness :
    insertNotification [nr1] nr2 = some ([nr1] ++ [nr2])
    ∧ newMatchKeyCount ([nr1] ++ [nr2]) "u1" "sq1" "li1"
        = newMatchKeyCount [] "u1" "sq1" "li1" + 2 :=
  notifications_dedup_not_enforced [] nr1 nr2 "u1" "sq1" "li1" [nr1]
    (by decide) (by decide) (by decide) (by decide)

/-- C10: `renew_listing` updates every row matching the caller and listing id
to thirty days of fresh expiry AND `active = true` — unconditionally, so a
previously deactivated or expired listing is re-activated — and leaves all
other rows unchanged. -/
theorem renew_listing_reactivates (db : List DbListing) (caller lid : String) (now : Nat) :
    List.Forall₂ (fun o c =>
      (o.id = lid ∧ o.user_id = caller →
        c = { o with expires_at := some (now + 30), active := true } ∧ c.active = true)
      ∧ (¬ (o.id = lid ∧ o.user_id = caller) → c = o))
      db (renew_listing db caller lid now) := by
  unfold renew_listing
  induction db with
  | nil => exact List.Forall₂.nil
  | cons l rest ih =>
    simp only [List.map_cons]
    refine List.Forall₂.cons ?_ ih
    by_cases h : l.id = lid ∧ l.user_id = caller
    · have hb : (l.id == lid && l.user_id == caller) = true := by
        simp only [Bool.and_eq_true, beq_iff_eq]; exact h
      refine ⟨fun _ => ?_, fun hn => absurd h hn⟩
      rw [if_pos hb]
      exact ⟨rfl, rfl⟩
    · have hb : ¬ (l.id == lid && l.user_id == caller) = true := by
        simp only [Bool.and_eq_true, beq_iff_eq]; exact h
      refine ⟨fun hy => absurd hy h, fun _ => ?_⟩
      rw [if_neg hb]

/-- C9: on a batch of three pending notifications where the transport call
fails exactly for the second, the report counts 2 sent and one error entry
(for the second recipient), the second row stays pending and untouched, and
the first and third rows are marked sent — the failure does not abort the
batch. -/
theorem dispatch_scenario :
    (dispatchRun tblScenario usersScenario transportScenario 100).2.1 = 2
    ∧ (dispatchRun tblScenario usersScenario transportScenario 100).2.2
        = ["Failed to send to b@x.com: boom"]
    ∧ (dispatchRun tblScenario usersScenario transportScenario 100).1 =
        [{ pn1 with email_sent := true, sent_at := some 100 }, pn2,
         { pn3 with email_sent := true, sent_at := some 100 }] := by
  decide

theorem rowRel_markSent {ids : List String} {now : Nat}
    {tbl acc : List NotificationRow}
    (h : List.Forall₂ (rowRel ids now) tbl acc) {nid : String} (hnid : nid ∈ ids) :
    List.Forall₂ (rowRel ids now) tbl (markSent acc nid now) := by
  unfold markSent
  induction h with
  | nil => exact List.Forall₂.nil
  | @cons a b l₁ l₂ hR hrest ih =>
    simp only [List.map_cons]
    refine List.Forall₂.cons ?_ ih
    show rowRel ids now a (if b.id == nid then updatedRow now b else b)
    rcases hR with rfl | ⟨hid, rfl⟩
    · by_cases hba : (b.id == nid) = true
      · rw [if_pos hba]
        exact Or.inr ⟨(beq_iff_eq.mp hba) ▸ hnid, rfl⟩
      · rw [if_neg hba]
        exact Or.inl rfl
    · by_cases hba : ((updatedRow now a).id == nid) = true
      · rw [if_pos hba]
        exact Or.inr ⟨hid, rfl⟩
      · rw [if_neg hba]
        exact Or.inr ⟨hid, rfl⟩

theorem rowRel_foldl (users : List DUser) (transport : NotificationRow → TransportResult)
    (now : Nat) (ids : List String) :
    ∀ (bs : List NotificationRow) (acc : List NotificationRow × Nat × List String)
      (tbl : List NotificationRow),
      List.Forall₂ (rowRel ids now) tbl acc.1 →
      (∀ n ∈ bs, transport n = TransportResult.ok → n.id ∈ ids) →
      List.Forall₂ (rowRel ids now) tbl
        (bs.foldl (processOne users transport now) acc).1 := by
  intro bs
  induction bs with
  | nil => intro acc tbl h _; exact h
  | cons n rest ih =>
    intro acc tbl h hids
    simp only [List.foldl_cons]
    refine ih _ tbl ?_ (fun m hm => hids m (List.mem_cons_of_mem _ hm))
    unfold processOne
    rcases hre : resolveEmail users n.user_id with - | email
    · exact h
    · rcases htr : transport n with - | msg | msg
      · exact rowRel_markSent h (hids n (List.mem_cons_self _ _) htr)
      · exact h
      · exact h

/-- C8: in one dispatcher run, a row that goes from pending
(`email_sent = false`) to delivered (`email_sent = true`) was rewritten to
the delivered shape by a successful transport call recorded for it in this
very run (a batch row with its id whose call returned ok); and the invariant
"`sent_at` is set iff the row is marked delivered" is preserved. -/
theorem dispatch_delivery_sound (tbl : List NotificationRow) (users : List DUser)
    (transport : NotificationRow → TransportResult) (now : Nat)
    (hinv : ∀ r ∈ tbl, r.email_sent = true ↔ r.sent_at ≠ none) :
    List.Forall₂ (fun o c =>
      o.email_sent = false → c.email_sent = true →
        c = updatedRow now o ∧
          ∃ n ∈ pendingBatch tbl, n.id = o.id ∧ transport n = TransportResult.ok)
      tbl (dispatchRun tbl users transport now).1
    ∧ ∀ c ∈ (dispatchRun tbl users transport now).1,
        (c.email_sent = true ↔ c.sent_at ≠ none) := by
  have base : List.Forall₂ (rowRel (okIds transport (pendingBatch tbl)) now) tbl tbl :=
    List.forall₂_same.mpr (fun a _ => Or.inl rfl)
  have hids : ∀ n ∈ pendingBatch tbl, transport n = TransportResult.ok →
      n.id ∈ okIds transport (pendingBatch tbl) := by
    intro n hn hok
    exact List.mem_map.mpr ⟨n, List.mem_filter.mpr ⟨hn, decide_eq_true hok⟩, rfl⟩
  have hfold := rowRel_foldl users transport now (okIds transport (pendingBatch tbl))
    (pendingBatch tbl) (tbl, 0, []) tbl base hids
  constructor
  · refine hfold.imp ?_
    intro o c hrel ho hc
    rcases hrel with rfl | ⟨hid, rfl⟩
    · exact absurd (ho.symm.trans hc) (by decide)
    · refine ⟨rfl, ?_⟩
      obtain ⟨n, hn, hnid⟩ := List.mem_map.mp hid
      obtain ⟨hnb, hok⟩ := List.mem_filter.mp hn
      exact ⟨n, hnb, hnid, of_decide_eq_true hok⟩
  · intro c hc
    obtain ⟨o, ho, hrel⟩ := forall₂_exists_left hfold c hc
    rcases hrel with rfl | ⟨-, rfl⟩
    · exact hinv _ ho
    · exact ⟨fun _ => by simp [updatedRow], fun _ => rfl⟩

/-- Witness for C8: the dispatcher soundness statement instantiated at the
concrete three-notification scenario. -/
theorem dispatch_delivery_sound_witness :
    List.Forall₂ (fun o c =>
      o.email_sent = false → c.email_sent = true →
        c = updatedRow 100 o ∧
          ∃ n ∈ pendingBatch tblScenario, n.id = o.id ∧
            transportScenario n = TransportResult.ok)
      tblScenario (dispatchRun tblScenario usersScenario transportScenario 100).1
    ∧ ∀ c ∈ (dispatchRun tblScenario usersScenario transportScenario 100).1,
        (c.email_sent = true ↔ c.sent_at ≠ none) :=
  dispatch_delivery_sound tblScenario usersScenario transportScenario 100 (by decide)

end Opengig
